import Mathlib

/-!
Shallow embedding of `python/ray/experimental/signal.py`.

The module talks to an external redis instance through `XADD`/`XREAD`.  We
model the redis state explicitly: a stream store mapping stream keys to
ordered entry lists, and the per-worker cursor dictionary
`signal_counters` (a `defaultdict(lambda: b"0")`, lazily attached to the
worker).  Task/actor identities are modelled by their hex strings (the code
only ever moves them between hex and binary form, which is a bijection we
collapse).  Redis entry ids are modelled as naturals ordered the way redis
orders ids, with the initial cursor `b"0"` modelled as `0`.  The pluggable
pickle codec (`cloudpickle.dumps`/`loads`) is external, so the embedded
operations take it as a function argument.  Timeouts are Python floats used
only for sign tests, a comparison with `1e-3`, and `int(1000 * t)`; we model
them as rationals, which is exact for every value exercised here.
-/

namespace RaySignal

/-- The reserved termination sentinel, `ACTOR_DIED_STR` in the source. -/
def ACTOR_DIED_STR : String := "ACTOR_DIED_SIGNAL"

/-- Signals: the `Signal` class hierarchy of the source (`ErrorSignal`,
`ActorDiedSignal`) plus a constructor for arbitrary user-defined picklable
signals. Payload contents are abstracted to naturals. -/
inductive Signal
  | ErrorSignal (error : Nat)
  | ActorDiedSignal
  | UserSignal (data : Nat)
deriving DecidableEq, Repr

/-- Task identity, in the hex form the module uses as redis stream key. -/
abbrev TaskID := String

/-- Redis stream entry id (`r[0]`), ordered as redis orders ids; the initial
cursor `b"0"` is modelled as `0` and real entry ids are positive. -/
abbrev Offset := Nat

/-- An object id returned by a task; in ray the creating task's id is
recoverable from the object id bits. -/
structure ObjectID where
  task_id : TaskID
  index : Nat
deriving DecidableEq, Repr

/-- A source handle as accepted by `_get_task_id`: an object id, a task id,
an actor handle (carrying `_actor_id` and, as handle metadata, the id of the
task that created the actor), or some unsupported python object. -/
inductive Source
  | objectId (oid : ObjectID)
  | taskId (tid : TaskID)
  | actorHandle (actor_id : TaskID) (creator_task_id : TaskID)
  | unsupportedKind (tag : Nat)
deriving DecidableEq, Repr

/-- The failures the embedded operations can raise: the `ValueError` for a
negative timeout, and the resolver failure on an unclassifiable handle. -/
inductive SigError
  | invalidTimeout
  | unsupportedSourceKind
deriving DecidableEq, Repr

/-- Modelled from the spec: `ray._raylet.compute_task_id` is native code that
is not under `src/`.  Per the spec, a result handle resolves to the identity
of the task that created it, and resolution fails for unrecognized handle
kinds. -/
def compute_task_id : Source → Except SigError TaskID
  | .objectId oid => .ok oid.task_id
  | _ => .error .unsupportedSourceKind

/-- `_get_task_id` from the source: actor handles return `source._actor_id`,
task ids return themselves, everything else goes to `compute_task_id`. -/
def _get_task_id (source : Source) : Except SigError TaskID :=
  match source with
  | .actorHandle actor_id _creator => .ok actor_id
  | .taskId tid => .ok tid
  | _ => compute_task_id source

/-- The worker's `signal_counters` defaultdict: stream key to cursor. -/
abbrev SignalCounters := List (TaskID × Offset)

/-- Cursor lookup with the defaultdict default `b"0"` (modelled as `0`). -/
def countersGet (sc : SignalCounters) (tid : TaskID) : Offset :=
  (sc.lookup tid).getD 0

/-- Cursor assignment `signal_counters[key] = value`. -/
def countersSet : SignalCounters → TaskID → Offset → SignalCounters
  | [], tid, v => [(tid, v)]
  | (k, w) :: rest, tid, v =>
    if k = tid then (k, v) :: rest else (k, w) :: countersSet rest tid v

/-- The worker state the module touches: `signal_counters` is absent
(`hasattr` false) until `receive` lazily creates it. -/
structure Worker where
  signal_counters : Option SignalCounters
deriving DecidableEq, Repr

/-- One redis stream entry: id `r[0]` and the value `r[1][1]` of the single
`signal` field, as an ascii string. -/
structure LogEntry where
  offset : Offset
  payload : String
deriving DecidableEq, Repr

/-- The redis stream store: stream key to entries in id order. -/
abbrev Streams := List (TaskID × List LogEntry)

/-- Entries currently on a stream (absent streams are empty). -/
def streamEntries (st : Streams) (tid : TaskID) : List LogEntry :=
  (st.lookup tid).getD []

/-- Model of the `XREAD BLOCK ms STREAMS k1 .. kn c1 .. cn` reply: for each
requested stream, the entries strictly newer than the supplied cursor, in
stream order, streams with nothing new omitted; `[]` is the nil reply after
a timeout with no data.  Blocking on data published after the call starts is
concurrency and outside the model. -/
def xread (st : Streams) (reqs : List (TaskID × Offset)) : List (TaskID × List LogEntry) :=
  (reqs.map fun kc => (kc.1, (streamEntries st kc.1).filter fun e => kc.2 < e.offset)).filter
    fun a => !a.2.isEmpty

/-- One step of building `task_id_to_sources`: `defaultdict` append keeping
python dict insertion order. -/
def groupAppend : List (TaskID × List Source) → TaskID → Source → List (TaskID × List Source)
  | [], tid, s => [(tid, [s])]
  | (k, l) :: rest, tid, s =>
    if k = tid then (k, l ++ [s]) :: rest else (k, l) :: groupAppend rest tid s

/-- The `for s in sources: task_id_to_sources[_get_task_id(s).hex()].append(s)`
loop; a resolver failure propagates as the python exception would. -/
def buildGroupsAux (acc : List (TaskID × List Source)) :
    List Source → Except SigError (List (TaskID × List Source))
  | [] => .ok acc
  | s :: rest =>
    match _get_task_id s with
    | .error e => .error e
    | .ok tid => buildGroupsAux (groupAppend acc tid s) rest

/-- `task_id_to_sources` built from the sources list. -/
def buildGroups (sources : List Source) : Except SigError (List (TaskID × List Source)) :=
  buildGroupsAux [] sources

/-- The inner `for s in task_source_list` loop of `receive` for one redis
entry `r`: a sentinel payload appends `(s, ActorDiedSignal())` and leaves the
cursor alone; any other payload sets the cursor to `r[0]` and appends the
unpickled signal. -/
def processEntry (loads : String → Signal) (task_id : TaskID)
    (task_source_list : List Source) (r : LogEntry)
    (acc : List (Source × Signal) × SignalCounters) :
    List (Source × Signal) × SignalCounters :=
  task_source_list.foldl
    (fun acc s =>
      if r.payload = ACTOR_DIED_STR then
        (acc.1 ++ [(s, Signal.ActorDiedSignal)], acc.2)
      else
        (acc.1 ++ [(s, loads r.payload)], countersSet acc.2 task_id r.offset))
    acc

/-- The `for r in answer[1]` loop of `receive` for one stream's answer. -/
def processAnswer (loads : String → Signal) (groups : List (TaskID × List Source))
    (acc : List (Source × Signal) × SignalCounters) (answer : TaskID × List LogEntry) :
    List (Source × Signal) × SignalCounters :=
  let task_source_list := (groups.lookup answer.1).getD []
  answer.2.foldl (fun acc r => processEntry loads answer.1 task_source_list r acc) acc

/-- The `for i, answer in enumerate(answers)` loop of `receive`. -/
def processAnswers (loads : String → Signal) (groups : List (TaskID × List Source))
    (sc : SignalCounters) (answers : List (TaskID × List LogEntry)) :
    List (Source × Signal) × SignalCounters :=
  answers.foldl (processAnswer loads groups) ([], sc)

instance {ε α : Type} [DecidableEq ε] [DecidableEq α] : DecidableEq (Except ε α) := fun a b =>
  match a, b with
  | .ok x, .ok y => decidable_of_iff (x = y) (by constructor <;> (intro h; cases h; rfl))
  | .error x, .error y => decidable_of_iff (x = y) (by constructor <;> (intro h; cases h; rfl))
  | .ok _, .error _ => isFalse (by intro h; cases h)
  | .error _, .ok _ => isFalse (by intro h; cases h)

/-- What one call to `receive` produced: its return value or exception, the
worker state afterwards, and the `XREAD` actually issued (`none` when the
call never reached redis), as block-milliseconds plus (stream, cursor)
requests. -/
structure ReceiveOutcome where
  result : Except SigError (List (Source × Signal))
  worker : Worker
  issuedRead : Option (Nat × List (TaskID × Offset))
deriving DecidableEq, Repr

/-- `receive(sources, timeout=None)` from the source, with the pickle codec
`loads` and the redis stream store passed explicitly. -/
def receive (loads : String → Signal) (sources : List Source) (timeout : Option ℚ)
    (w : Worker) (st : Streams) : ReceiveOutcome :=
  -- If None, initialize the timeout to a huge value to approximate infinity.
  let timeout : ℚ := timeout.getD (10 ^ 12)
  if timeout < 0 then
    { result := .error .invalidTimeout, worker := w, issuedRead := none }
  else
    -- lazily attach the signal_counters defaultdict to the worker
    let signal_counters := w.signal_counters.getD []
    match buildGroups sources with
    | .error e =>
      { result := .error e, worker := ⟨some signal_counters⟩, issuedRead := none }
    | .ok task_id_to_sources =>
      let timeout := if timeout < 1 / 1000 then 1 / 1000 else timeout
      let timeout_ms : Nat := (1000 * timeout).floor.toNat
      let reqs := task_id_to_sources.map fun g => (g.1, countersGet signal_counters g.1)
      let answers := xread st reqs
      if answers.isEmpty then
        { result := .ok [], worker := ⟨some signal_counters⟩,
          issuedRead := some (timeout_ms, reqs) }
      else
        let res := processAnswers loads task_id_to_sources signal_counters answers
        { result := .ok res.1, worker := ⟨some res.2⟩,
          issuedRead := some (timeout_ms, reqs) }

/-- `forget(sources)` from the source: `receive(sources, timeout=0)` with the
return value discarded. -/
def forget (loads : String → Signal) (sources : List Source) (w : Worker)
    (st : Streams) : ReceiveOutcome :=
  receive loads sources (some 0) w st

/-- `reset()` from the source: replace `signal_counters` with a fresh
defaultdict when it exists. -/
def reset (w : Worker) : Worker :=
  match w.signal_counters with
  | some _ => ⟨some []⟩
  | none => w

/-- One hex digit, lowercase, as `binascii.hexlify` produces. -/
def hexDigit (n : Nat) : Char :=
  if n < 10 then Char.ofNat (48 + n) else Char.ofNat (87 + n)

/-- `ray.utils.binary_to_hex`: two lowercase hex digits per byte. -/
def binary_to_hex (bs : List UInt8) : String :=
  String.mk (bs.foldr (fun b acc => hexDigit (b.toNat / 16) :: hexDigit (b.toNat % 16) :: acc) [])

/-- The parts of `ray.worker.global_worker` that `send` reads to name its own
stream. -/
structure SendContext where
  actor_id_is_nil : Bool
  current_task_id : TaskID
  actor_id : TaskID
deriving DecidableEq, Repr

/-- `send(signal)` from the source, with the pickler `dumps` passed
explicitly: returns the `(stream key, field value)` pair of the issued
`XADD source_key * signal encoded_signal`. -/
def send (dumps : Signal → List UInt8) (ctx : SendContext) (signal : Signal) :
    TaskID × String :=
  let source_key := if ctx.actor_id_is_nil then ctx.current_task_id else ctx.actor_id
  (source_key, binary_to_hex (dumps signal))

/-- Concrete stand-in for the external `cloudpickle.loads` in closed tests. -/
def loadsStub : String → Signal := fun _ => Signal.UserSignal 0

/-- Concrete stand-in for the external `cloudpickle.dumps` in closed tests. -/
def dumpsStub : Signal → List UInt8 := fun _ => [0]

/-- A one-entry stream holding only the termination sentinel, the scenario on
which the cursor-advance slip of `receive` is observable. -/
def sentinelStream : Streams := [("t", [LogEntry.mk 1 "ACTOR_DIED_SIGNAL"])]

/-- Whether `_get_task_id` can classify a handle. -/
def isSupportedSource : Source → Bool
  | .unsupportedKind _ => false
  | _ => true

/-! Helper lemmas. -/

/-- Length of the hex encoding at the character-list level. -/
theorem binary_to_hex_data_length (bs : List UInt8) :
    (bs.foldr (fun b acc => hexDigit (b.toNat / 16) :: hexDigit (b.toNat % 16) :: acc)
      ([] : List Char)).length = 2 * bs.length := by
  induction bs with
  | nil => rfl
  | cons b rest ih => simp [List.foldr_cons, ih]; omega

/-- `binary_to_hex` always produces an even-length string. -/
theorem binary_to_hex_length (bs : List UInt8) :
    (binary_to_hex bs).length = 2 * bs.length :=
  binary_to_hex_data_length bs

/-! Claim theorems. -/

/-- C1: evidence against the claim. On a stream whose outstanding entry is the
termination sentinel, `receive` delivers the `ActorDiedSignal` but leaves the
consumer's cursor at `0` (the cursor is assigned only in the non-sentinel
branch of the decode loop), so an identical second `receive` by the same
consumer delivers the very same entry again, with no `reset` in between. -/
theorem receive_redelivers_sentinel_entry :
    (receive loadsStub [Source.taskId "t"] (some 1) ⟨none⟩ sentinelStream).result
      = Except.ok [(Source.taskId "t", Signal.ActorDiedSignal)] ∧
    (receive loadsStub [Source.taskId "t"] (some 1) ⟨none⟩ sentinelStream).worker
      = ⟨some []⟩ ∧
    (receive loadsStub [Source.taskId "t"] (some 1)
        (receive loadsStub [Source.taskId "t"] (some 1) ⟨none⟩ sentinelStream).worker
        sentinelStream).result
      = Except.ok [(Source.taskId "t", Signal.ActorDiedSignal)] := by
  decide

/-- C2: evidence against the claim. With one outstanding termination-sentinel
entry, `forget(sources)` drains the stream but does not advance the cursor
past the sentinel, so the immediately following `receive(sources, timeout=0)`
with no intervening publish returns that entry again instead of `[]`. -/
theorem forget_then_receive_not_empty :
    (receive loadsStub [Source.taskId "t"] (some 0)
        (forget loadsStub [Source.taskId "t"] ⟨none⟩ sentinelStream).worker
        sentinelStream).result
      = Except.ok [(Source.taskId "t", Signal.ActorDiedSignal)] ∧
    (receive loadsStub [Source.taskId "t"] (some 0)
        (forget loadsStub [Source.taskId "t"] ⟨none⟩ sentinelStream).worker
        sentinelStream).result
      ≠ Except.ok [] := by
  decide

/-- C3 counterexample: `send` does not special-case the termination variant.
Sending `ActorDiedSignal` appends the hex-encoded pickle of the signal, not
the reserved sentinel bytes. -/
theorem send_actor_died_not_sentinel :
    (send dumpsStub ⟨true, "t", ""⟩ Signal.ActorDiedSignal).2 ≠ ACTOR_DIED_STR := by
  decide

/-- C3 amended: every `send`, the termination variant included, passes its
argument through the codec (pickle then hex); the appended field value is the
codec output and can never equal the reserved sentinel bytes, whose length is
odd while every hex encoding has even length. -/
theorem send_always_encodes_via_codec (dumps : Signal → List UInt8) (ctx : SendContext)
    (sig : Signal) :
    (send dumps ctx sig).2 = binary_to_hex (dumps sig) ∧
    (send dumps ctx sig).2 ≠ ACTOR_DIED_STR := by
  refine ⟨rfl, fun h => ?_⟩
  have h2 : (binary_to_hex (dumps sig)).length = ACTOR_DIED_STR.length := by
    rw [← h]; rfl
  rw [binary_to_hex_length] at h2
  have h3 : ACTOR_DIED_STR.length = 17 := rfl
  omega

/-- C4 counterexample: for an actor handle whose `_actor_id` is `"aa"` and
whose creating task's id is `"bb"`, resolution returns the actor's own id,
not the creator task's id as the claim states. -/
theorem get_task_id_actor_counterexample :
    _get_task_id (Source.actorHandle "aa" "bb") ≠ Except.ok "bb" := by
  decide

/-- C4 amended: resolving an actor-handle source yields the actor's own
identity (`source._actor_id`), deterministically, and this is exactly the
stream key `send` uses when the sending worker executes as that actor — so
resolution and publication agree on the actor's stream. -/
theorem get_task_id_actor_resolves_to_actor_id (aid creator t : TaskID)
    (dumps : Signal → List UInt8) (sig : Signal) :
    _get_task_id (Source.actorHandle aid creator) = Except.ok aid ∧
    (send dumps ⟨false, t, aid⟩ sig).1 = aid :=
  ⟨rfl, rfl⟩

/-- C6: a negative timeout makes `receive` fail with the invalid-timeout error
before anything else happens: the worker state is returned untouched (no
cursor store is created or read) and no read is issued to the store. -/
theorem receive_negative_timeout (loads : String → Signal) (sources : List Source)
    (q : ℚ) (w : Worker) (st : Streams) (hq : q < 0) :
    receive loads sources (some q) w st =
      { result := Except.error SigError.invalidTimeout, worker := w, issuedRead := none } := by
  simp [receive, hq]

/-- C6 witness: the negative-timeout theorem at `timeout = -1`. -/
theorem receive_negative_timeout_witness :
    receive loadsStub [Source.taskId "t"] (some (-1)) ⟨none⟩ [] =
      { result := Except.error SigError.invalidTimeout, worker := ⟨none⟩, issuedRead := none } :=
  receive_negative_timeout loadsStub [Source.taskId "t"] (-1) ⟨none⟩ [] (by norm_num)

/-- The only failure `_get_task_id` can raise is the unsupported-kind one. -/
theorem get_task_id_error_eq (s : Source) (e : SigError)
    (h : _get_task_id s = Except.error e) : e = SigError.unsupportedSourceKind := by
  cases s <;> simp_all [_get_task_id, compute_task_id]

/-- A supported handle resolves successfully. -/
theorem get_task_id_ok_of_supported (s : Source) (h : isSupportedSource s = true) :
    ∃ tid, _get_task_id s = Except.ok tid := by
  cases s <;> simp_all [isSupportedSource, _get_task_id, compute_task_id]

/-- If any source in the list is unsupported, building the stream grouping
fails with the unsupported-kind error, whatever was accumulated so far. -/
theorem buildGroupsAux_error_unsupported :
    ∀ (sources : List Source) (acc : List (TaskID × List Source)),
      (∃ s ∈ sources, isSupportedSource s = false) →
      buildGroupsAux acc sources = Except.error SigError.unsupportedSourceKind := by
  intro sources
  induction sources with
  | nil => rintro acc ⟨s, hs, _⟩; simp at hs
  | cons a rest ih =>
    rintro acc ⟨s, hs, hbad⟩
    rcases List.mem_cons.mp hs with rfl | hs'
    · cases s <;> simp_all [isSupportedSource, buildGroupsAux, _get_task_id, compute_task_id]
    · cases haeq : _get_task_id a with
      | error e =>
        rw [get_task_id_error_eq a e haeq] at haeq
        simp [buildGroupsAux, haeq]
      | ok tid =>
        simp only [buildGroupsAux, haeq]
        exact ih _ ⟨s, hs', hbad⟩

/-- Full evaluation of `receive` on a nonnegative timeout once the grouping
succeeds; used to settle the timeout-policy claims. -/
theorem receive_eval (loads : String → Signal) (sources : List Source) (q : ℚ)
    (w : Worker) (st : Streams) (groups : List (TaskID × List Source))
    (hq : 0 ≤ q) (hg : buildGroups sources = Except.ok groups) :
    receive loads sources (some q) w st =
      (let sc := w.signal_counters.getD []
       let tms := ((1000 : ℚ) * (if q < 1 / 1000 then 1 / 1000 else q)).floor.toNat
       let reqs := groups.map fun g => (g.1, countersGet sc g.1)
       let answers := xread st reqs
       if answers.isEmpty then
         { result := Except.ok [], worker := ⟨some sc⟩, issuedRead := some (tms, reqs) }
       else
         let res := processAnswers loads groups sc answers
         { result := Except.ok res.1, worker := ⟨some res.2⟩,
           issuedRead := some (tms, reqs) }) := by
  simp only [receive, Option.getD_some, hg]
  rw [if_neg (not_lt.mpr hq)]

/-- C5: if any source handle is of an unsupported kind, `receive` fails as a
whole with the unsupported-kind error: no pairs are returned, no read is
issued to the store, and no cursor value is written (only the lazy empty
cursor dictionary is attached, as the code does before resolving). -/
theorem receive_unsupported_source (loads : String → Signal) (sources : List Source)
    (q : ℚ) (w : Worker) (st : Streams)
    (hq : 0 ≤ q) (hbad : ∃ s ∈ sources, isSupportedSource s = false) :
    (receive loads sources (some q) w st).result
        = Except.error SigError.unsupportedSourceKind ∧
    (receive loads sources (some q) w st).issuedRead = none ∧
    (receive loads sources (some q) w st).worker
        = ⟨some (w.signal_counters.getD [])⟩ := by
  have hg : buildGroups sources = Except.error SigError.unsupportedSourceKind :=
    buildGroupsAux_error_unsupported sources [] hbad
  refine ⟨?_, ?_, ?_⟩ <;>
    · simp only [receive, Option.getD_some, hg]
      rw [if_neg (not_lt.mpr hq)]

/-- C5 witness: the unsupported-source theorem at one concrete unsupported
handle, timeout 1s, a fresh worker and an empty store. -/
theorem receive_unsupported_source_witness :
    (receive loadsStub [Source.unsupportedKind 0] (some 1) ⟨none⟩ []).result
        = Except.error SigError.unsupportedSourceKind ∧
    (receive loadsStub [Source.unsupportedKind 0] (some 1) ⟨none⟩ []).issuedRead = none ∧
    (receive loadsStub [Source.unsupportedKind 0] (some 1) ⟨none⟩ []).worker
        = ⟨some ((Worker.mk none).signal_counters.getD [])⟩ :=
  receive_unsupported_source loadsStub [Source.unsupportedKind 0] 1 ⟨none⟩ []
    (by norm_num) ⟨Source.unsupportedKind 0, by simp, rfl⟩

/-- C7: a positive sub-millisecond timeout is not an error: `receive` clamps
it to one millisecond and issues the blocking read with block time exactly
1 ms; an absent (`None`) timeout behaves as the large finite bound of 10^12
seconds, so the read is issued with a finite block time of 10^15 ms. -/
theorem receive_timeout_clamp (loads : String → Signal) (sources : List Source)
    (q : ℚ) (w : Worker) (st : Streams) (groups : List (TaskID × List Source))
    (hg : buildGroups sources = Except.ok groups) (h0 : 0 < q) (h1 : q < 1 / 1000) :
    (∃ rs, (receive loads sources (some q) w st).result = Except.ok rs) ∧
    (receive loads sources (some q) w st).issuedRead =
      some (1, groups.map fun g => (g.1, countersGet (w.signal_counters.getD []) g.1)) ∧
    receive loads sources none w st = receive loads sources (some (10 ^ 12)) w st ∧
    (receive loads sources none w st).issuedRead =
      some (10 ^ 15, groups.map fun g => (g.1, countersGet (w.signal_counters.getD []) g.1)) := by
  have hms : ((1000 : ℚ) * (if q < 1 / 1000 then 1 / 1000 else q)).floor.toNat = 1 := by
    rw [if_pos h1]
    have h : (1000 : ℚ) * (1 / 1000) = ((1 : ℤ) : ℚ) := by norm_num
    rw [h, Rat.floor_def', ← Rat.floor_def]
    norm_num
  have hbig : ((1000 : ℚ) * (if (10 ^ 12 : ℚ) < 1 / 1000 then 1 / 1000 else 10 ^ 12)).floor.toNat
      = 10 ^ 15 := by
    rw [if_neg (by norm_num)]
    have h : (1000 : ℚ) * (10 ^ 12) = ((10 ^ 15 : ℤ) : ℚ) := by norm_num
    rw [h, Rat.floor_def', ← Rat.floor_def]
    norm_num
    rfl
  have heq : receive loads sources none w st = receive loads sources (some (10 ^ 12)) w st := rfl
  refine ⟨?_, ?_, heq, ?_⟩
  · rw [receive_eval loads sources q w st groups (le_of_lt h0) hg]
    simp only
    split <;> exact ⟨_, rfl⟩
  · rw [receive_eval loads sources q w st groups (le_of_lt h0) hg]
    simp only [hms]
    split <;> rfl
  · rw [heq, receive_eval loads sources (10 ^ 12) w st groups (by norm_num) hg]
    simp only [hbig]
    split <;> rfl

/-- C7 witness: the clamp theorem at timeout 0.0005 s on one task source,
with the resulting read issued at exactly 1 ms (and 10^15 ms for `None`). -/
theorem receive_timeout_clamp_witness :
    (∃ rs, (receive loadsStub [Source.taskId "t"] (some (1 / 2000)) ⟨none⟩ []).result
        = Except.ok rs) ∧
    (receive loadsStub [Source.taskId "t"] (some (1 / 2000)) ⟨none⟩ []).issuedRead
        = some (1, [("t", 0)]) ∧
    receive loadsStub [Source.taskId "t"] none ⟨none⟩ []
        = receive loadsStub [Source.taskId "t"] (some (10 ^ 12)) ⟨none⟩ [] ∧
    (receive loadsStub [Source.taskId "t"] none ⟨none⟩ []).issuedRead
        = some (10 ^ 15, [("t", 0)]) := by
  have h := receive_timeout_clamp loadsStub [Source.taskId "t"] (1 / 2000) ⟨none⟩ []
      [("t", [Source.taskId "t"])] rfl (by norm_num) (by norm_num)
  simpa [countersGet] using h

/-- C10: `forget` is literally `receive` with timeout 0, and that zero timeout
falls under the sub-millisecond clamp, so the blocking read `forget` issues is
sent with a block time of 1 ms, never 0. -/
theorem forget_clamps_zero_timeout (loads : String → Signal) (sources : List Source)
    (w : Worker) (st : Streams) (groups : List (TaskID × List Source))
    (hg : buildGroups sources = Except.ok groups) :
    forget loads sources w st = receive loads sources (some 0) w st ∧
    (forget loads sources w st).issuedRead =
      some (1, groups.map fun g => (g.1, countersGet (w.signal_counters.getD []) g.1)) := by
  refine ⟨rfl, ?_⟩
  rw [forget, receive_eval loads sources 0 w st groups le_rfl hg]
  have hms : ((1000 : ℚ) * (if (0 : ℚ) < 1 / 1000 then 1 / 1000 else 0)).floor.toNat = 1 := by
    rw [if_pos (by norm_num)]
    have h : (1000 : ℚ) * (1 / 1000) = ((1 : ℤ) : ℚ) := by norm_num
    rw [h, Rat.floor_def', ← Rat.floor_def]
    norm_num
  simp only [hms]
  split <;> rfl

/-- C10 witness: the zero-timeout clamp theorem on one task source over an
empty store: the drain read goes out with block time 1 ms. -/
theorem forget_clamps_zero_timeout_witness :
    forget loadsStub [Source.taskId "t"] ⟨none⟩ []
        = receive loadsStub [Source.taskId "t"] (some 0) ⟨none⟩ [] ∧
    (forget loadsStub [Source.taskId "t"] ⟨none⟩ []).issuedRead = some (1, [("t", 0)]) := by
  have h := forget_clamps_zero_timeout loadsStub [Source.taskId "t"] ⟨none⟩ []
      [("t", [Source.taskId "t"])] rfl
  simpa [countersGet] using h

/-- The pairs appended while fanning one entry out to a stream's source list:
one pair per source, sentinel payloads decided by exact comparison, other
payloads decoded by the codec. -/
theorem processEntry_fst (loads : String → Signal) (task_id : TaskID) (r : LogEntry) :
    ∀ (srcs : List Source) (acc : List (Source × Signal) × SignalCounters),
      (processEntry loads task_id srcs r acc).1 =
        acc.1 ++ srcs.map fun s =>
          (s, if r.payload = ACTOR_DIED_STR then Signal.ActorDiedSignal
              else loads r.payload) := by
  intro srcs
  induction srcs with
  | nil => intro acc; simp [processEntry]
  | cons s rest ih =>
    intro acc
    by_cases hp : r.payload = ACTOR_DIED_STR
    · have h1 : processEntry loads task_id (s :: rest) r acc
          = processEntry loads task_id rest r
              (acc.1 ++ [(s, Signal.ActorDiedSignal)], acc.2) := by
        simp [processEntry, hp]
      rw [h1, ih]
      simp [hp]
    · have h1 : processEntry loads task_id (s :: rest) r acc
          = processEntry loads task_id rest r
              (acc.1 ++ [(s, loads r.payload)], countersSet acc.2 task_id r.offset) := by
        simp [processEntry, hp]
      rw [h1, ih]
      simp [hp]

/-- Folding the decode loop over a stream's entries appends, for each entry in
stream order, one decoded pair per source. -/
theorem processEntries_fst (loads : String → Signal) (task_id : TaskID)
    (srcs : List Source) :
    ∀ (es : List LogEntry) (acc : List (Source × Signal) × SignalCounters),
      (es.foldl (fun acc r => processEntry loads task_id srcs r acc) acc).1 =
        acc.1 ++ es.flatMap fun e => srcs.map fun s =>
          (s, if e.payload = ACTOR_DIED_STR then Signal.ActorDiedSignal
              else loads e.payload) := by
  intro es
  induction es with
  | nil => intro acc; simp
  | cons e rest ih =>
    intro acc
    rw [List.foldl_cons, ih, processEntry_fst]
    simp

/-- When every source resolves to the same stream, the grouping loop makes a
single group holding all sources in order, whatever was already grouped under
that stream. -/
theorem buildGroupsAux_single (tid : TaskID) :
    ∀ (sources : List Source) (l : List Source),
      (∀ s ∈ sources, _get_task_id s = Except.ok tid) →
      buildGroupsAux [(tid, l)] sources = Except.ok [(tid, l ++ sources)] := by
  intro sources
  induction sources with
  | nil => intro l _; simp [buildGroupsAux]
  | cons s rest ih =>
    intro l h
    have hs := h s (List.mem_cons_self s rest)
    have hrest : ∀ s' ∈ rest, _get_task_id s' = Except.ok tid :=
      fun s' hs' => h s' (List.mem_cons_of_mem s hs')
    simp only [buildGroupsAux, hs, groupAppend, if_true]
    rw [ih (l ++ [s]) hrest]
    simp

/-- `buildGroups` on a nonempty list of sources that all resolve to one stream
yields exactly one group with the sources in their original order. -/
theorem buildGroups_single (tid : TaskID) (sources : List Source)
    (hne : sources ≠ []) (h : ∀ s ∈ sources, _get_task_id s = Except.ok tid) :
    buildGroups sources = Except.ok [(tid, sources)] := by
  cases sources with
  | nil => exact absurd rfl hne
  | cons s rest =>
    have hs := h s (List.mem_cons_self s rest)
    have hrest : ∀ s' ∈ rest, _get_task_id s' = Except.ok tid :=
      fun s' hs' => h s' (List.mem_cons_of_mem s hs')
    simp only [buildGroups, buildGroupsAux, hs, groupAppend]
    rw [buildGroupsAux_single tid rest [s] hrest]
    simp

/-- Full evaluation of the returned pair list of `receive` when all sources
resolve to one stream that holds only entries newer than the cursor. -/
theorem receive_one_stream (loads : String → Signal) (sources : List Source)
    (tid : TaskID) (es : List LogEntry) (q : ℚ) (w : Worker) (st : Streams)
    (hne : sources ≠ [])
    (hres : ∀ s ∈ sources, _get_task_id s = Except.ok tid)
    (hst : streamEntries st tid = es)
    (hnew : ∀ e ∈ es, countersGet (w.signal_counters.getD []) tid < e.offset)
    (hes : es ≠ [])
    (hq : 0 ≤ q) :
    (receive loads sources (some q) w st).result =
      Except.ok (es.flatMap fun e => sources.map fun s =>
        (s, if e.payload = ACTOR_DIED_STR then Signal.ActorDiedSignal
            else loads e.payload)) := by
  have hg := buildGroups_single tid sources hne hres
  rw [receive_eval loads sources q w st [(tid, sources)] hq hg]
  have hfilter : (streamEntries st tid).filter
      (fun e => decide (countersGet (w.signal_counters.getD []) tid < e.offset)) = es := by
    rw [hst]
    exact List.filter_eq_self.mpr fun e he => by simpa using hnew e he
  have hesb : es.isEmpty = false := by
    cases es with
    | nil => exact absurd rfl hes
    | cons a l => rfl
  simp only [xread, List.map_cons, List.map_nil, hfilter, List.filter_cons, hesb,
    Bool.not_false, if_true, List.filter_nil, List.isEmpty_cons, Bool.false_eq_true,
    if_false]
  simp only [processAnswers, List.foldl_cons, List.foldl_nil, processAnswer,
    List.lookup_cons, beq_self_eq_true, Option.getD_some]
  rw [processEntries_fst]
  simp

/-- Pointwise-on-members congruence for `flatMap`, used to specialize the
single-stream evaluation. -/
theorem flatMap_congr_mem {α β : Type} (l : List α) (f g : α → List β)
    (h : ∀ a ∈ l, f a = g a) : l.flatMap f = l.flatMap g := by
  induction l with
  | nil => rfl
  | cons a rest ih =>
    simp only [List.flatMap_cons, h a (List.mem_cons_self a rest)]
    rw [ih fun a' ha' => h a' (List.mem_cons_of_mem a ha')]

/-- C8: two distinct sources resolving to one stream each receive their own
copy of every signal on that stream, in stream order: on entries `es` (none
of them the sentinel) `receive [s1, s2]` returns, per entry in order, the
pair for `s1` then the pair for `s2` — in particular exactly two pairs
`(s1, sig), (s2, sig)` after a single publish. -/
theorem receive_fanout_same_stream (loads : String → Signal) (s1 s2 : Source)
    (tid : TaskID) (es : List LogEntry) (q : ℚ) (w : Worker) (st : Streams)
    (hs : s1 ≠ s2)
    (h1 : _get_task_id s1 = Except.ok tid) (h2 : _get_task_id s2 = Except.ok tid)
    (hst : streamEntries st tid = es)
    (hall : ∀ e ∈ es, e.payload ≠ ACTOR_DIED_STR)
    (hnew : ∀ e ∈ es, countersGet (w.signal_counters.getD []) tid < e.offset)
    (hes : es ≠ []) (hq : 0 ≤ q) :
    (receive loads [s1, s2] (some q) w st).result =
      Except.ok (es.flatMap fun e => [(s1, loads e.payload), (s2, loads e.payload)]) := by
  rw [receive_one_stream loads [s1, s2] tid es q w st (by simp)
    (by intro s hsm; simp at hsm; rcases hsm with rfl | rfl; exacts [h1, h2])
    hst hnew hes hq]
  exact congrArg Except.ok (flatMap_congr_mem es _ _ fun e he => by simp [hall e he])

/-- C8 witness: two object ids produced by one task, one fresh entry on the
task's stream: `receive` returns exactly the two pairs, first source first. -/
theorem receive_fanout_same_stream_witness :
    (receive loadsStub [Source.objectId ⟨"t", 0⟩, Source.objectId ⟨"t", 1⟩] (some 1)
        ⟨none⟩ [("t", [LogEntry.mk 1 "aa"])]).result =
      Except.ok [(Source.objectId ⟨"t", 0⟩, Signal.UserSignal 0),
                 (Source.objectId ⟨"t", 1⟩, Signal.UserSignal 0)] := by
  have h := receive_fanout_same_stream loadsStub (Source.objectId ⟨"t", 0⟩)
      (Source.objectId ⟨"t", 1⟩) "t" [LogEntry.mk 1 "aa"] 1 ⟨none⟩
      [("t", [LogEntry.mk 1 "aa"])] (by decide) rfl rfl rfl (by decide) (by decide)
      (by decide) (by norm_num)
  simpa [loadsStub] using h

/-- C9: per returned entry, `receive` decides termination by exact comparison
of the payload with the reserved sentinel before any codec decode: a sentinel
entry yields `ActorDiedSignal` for every source mapped to the stream, and only
non-sentinel payloads go through the codec; consequently on an all-sentinel
stream the returned pairs are identical under any two codec configurations. -/
theorem receive_sentinel_detection (loads loads₂ : String → Signal)
    (sources : List Source) (tid : TaskID) (es : List LogEntry) (q : ℚ)
    (w : Worker) (st : Streams)
    (hne : sources ≠ [])
    (hres : ∀ s ∈ sources, _get_task_id s = Except.ok tid)
    (hst : streamEntries st tid = es)
    (hnew : ∀ e ∈ es, countersGet (w.signal_counters.getD []) tid < e.offset)
    (hes : es ≠ []) (hq : 0 ≤ q) :
    (receive loads sources (some q) w st).result =
      Except.ok (es.flatMap fun e => sources.map fun s =>
        (s, if e.payload = ACTOR_DIED_STR then Signal.ActorDiedSignal
            else loads e.payload)) ∧
    ((∀ e ∈ es, e.payload = ACTOR_DIED_STR) →
      (receive loads sources (some q) w st).result =
        (receive loads₂ sources (some q) w st).result) := by
  refine ⟨receive_one_stream loads sources tid es q w st hne hres hst hnew hes hq, fun hsent => ?_⟩
  rw [receive_one_stream loads sources tid es q w st hne hres hst hnew hes hq,
    receive_one_stream loads₂ sources tid es q w st hne hres hst hnew hes hq]
  exact congrArg Except.ok (flatMap_congr_mem es _ _ fun e he => by simp [hsent e he])

/-- C9 witness: a stream holding a sentinel entry then a normal entry, one
task source: the sentinel entry comes back as `ActorDiedSignal`, the normal
one through the codec; and on the sentinel-only stream two different codecs
produce the same result. -/
theorem receive_sentinel_detection_witness :
    (receive loadsStub [Source.taskId "t"] (some 1) ⟨none⟩
        [("t", [LogEntry.mk 1 "ACTOR_DIED_SIGNAL", LogEntry.mk 2 "aa"])]).result =
      Except.ok [(Source.taskId "t", Signal.ActorDiedSignal),
                 (Source.taskId "t", Signal.UserSignal 0)] ∧
    (receive loadsStub [Source.taskId "t"] (some 1) ⟨none⟩ sentinelStream).result =
      (receive (fun _ => Signal.ErrorSignal 7) [Source.taskId "t"] (some 1) ⟨none⟩
        sentinelStream).result := by
  constructor
  · have h := (receive_sentinel_detection loadsStub loadsStub [Source.taskId "t"] "t"
        [LogEntry.mk 1 "ACTOR_DIED_SIGNAL", LogEntry.mk 2 "aa"] 1 ⟨none⟩
        [("t", [LogEntry.mk 1 "ACTOR_DIED_SIGNAL", LogEntry.mk 2 "aa"])]
        (by decide) (by decide) rfl (by decide) (by decide) (by norm_num)).1
    simpa [loadsStub, ACTOR_DIED_STR] using h
  · exact (receive_sentinel_detection loadsStub (fun _ => Signal.ErrorSignal 7)
        [Source.taskId "t"] "t" [LogEntry.mk 1 "ACTOR_DIED_SIGNAL"] 1 ⟨none⟩
        sentinelStream (by decide) (by decide) rfl (by decide) (by decide)
        (by norm_num)).2 (by decide)

end RaySignal
